import Mathlib

/-!
Shallow embedding of the scavenger-hunt admin dashboard claim-attempt
logic: the client-side rate-limit computation (`calculateRateLimit`), and
the admin claim-attempt query (GET) and mutation (POST) route handlers.
Timestamps are modelled as integer milliseconds since the epoch, matching
`Date.getTime()` arithmetic in the source.
-/

/-- A recorded claim attempt (the `ClaimAttempt` interface / embedded
Mongo subdocument): identifier string, success flag, timestamp in
milliseconds, optional reference to the claimed hunt item. -/
structure ClaimAttempt where
  identifier : String
  success : Bool
  timestamp : Int
  item_id : Option String
deriving DecidableEq

/-- A stored user document, restricted to the fields the claim-attempt
routes select: email, optional display name, embedded attempt list. -/
structure StoredUser where
  email : String
  name : Option String
  claim_attempts : List ClaimAttempt
deriving DecidableEq

/-- The authenticated session user object (`session.user`); its email
may be absent. -/
structure SessionUser where
  email : Option String
deriving DecidableEq

/-- The 15-minute rate-limit window, in milliseconds (`15 * 60 * 1000`). -/
def rateLimitWindowMs : Int := 15 * 60 * 1000

/-- Result record of the client-side `calculateRateLimit` function. -/
structure RateLimitInfo where
  recentFailedAttempts : Nat
  isRateLimited : Bool
  remainingAttempts : Int
deriving DecidableEq

/-- Function `calculateRateLimit` from the user-history modal: counts failed
attempts with timestamp at or after `now - 15min` (the source compares
`new Date(attempt.timestamp) >= windowStart` with no upper bound), flags
rate-limited at 10, and reports `Math.max(0, 10 - count)` remaining. -/
def calculateRateLimit (claimAttempts : List ClaimAttempt) (now : Int) : RateLimitInfo :=
  let windowStart := now - rateLimitWindowMs
  let recentFailedAttempts :=
    claimAttempts.filter (fun attempt =>
      !attempt.success && decide (windowStart ≤ attempt.timestamp))
  { recentFailedAttempts := recentFailedAttempts.length
    isRateLimited := decide (recentFailedAttempts.length ≥ 10)
    remainingAttempts := max 0 (10 - (recentFailedAttempts.length : Int)) }

/-- The clear policies the POST handler recognizes. -/
def validClearTypes : List String := ["failed", "all", "rate-limit"]

/-- The POST handler clear step: `failed` keeps successful attempts,
`rate-limit` keeps attempts that are successful or strictly older than
`now - 15min`, anything else (reached only for `all` after validation)
empties the list. -/
def clearAttempts (clearType : String) (attempts : List ClaimAttempt) (now : Int) :
    List ClaimAttempt :=
  if clearType = "failed" then
    attempts.filter (fun attempt => attempt.success)
  else if clearType = "rate-limit" then
    let windowStart := now - rateLimitWindowMs
    attempts.filter (fun attempt =>
      attempt.success || decide (attempt.timestamp < windowStart))
  else
    []

/-- Count of failed attempts in a list (the
`filter(attempt => !attempt.success).length` expression used for audit
snapshots). -/
def failedCount (attempts : List ClaimAttempt) : Nat :=
  (attempts.filter (fun attempt => !attempt.success)).length

-- Theorems for the rate-limit computation claims.

/-- Stated from the words of the claim: count of attempts with success=false and
timestamp within the two-sided window [now - 15min, now]. -/
def specRecentFailedCount (claimAttempts : List ClaimAttempt) (now : Int) : Nat :=
  (claimAttempts.filter (fun attempt =>
    !attempt.success &&
      decide (now - rateLimitWindowMs ≤ attempt.timestamp) &&
      decide (attempt.timestamp ≤ now))).length

/-- C1 counterexample: a failed attempt with a future timestamp (now = 0,
timestamp = 60000) is counted by the code, but lies outside the claimed
window [now - 15min, now]. -/
theorem calculateRateLimit_counts_future_failed_attempt :
    (calculateRateLimit [⟨"x", false, 60000, none⟩] 0).recentFailedAttempts ≠
      specRecentFailedCount [⟨"x", false, 60000, none⟩] 0 := by
  decide

/-- C1 (amended): the rate-limit computation is a pure function of the
attempt list and current time, with a one-sided window:
`recentFailedAttempts` counts attempts with success=false and timestamp
≥ now - 15min (no upper bound); `isRateLimited` holds iff that count is
≥ 10; `remainingAttempts` is max(0, 10 - count). -/
theorem calculateRateLimit_pure_contract (l : List ClaimAttempt) (now : Int) :
    (calculateRateLimit l now).recentFailedAttempts =
      l.countP (fun a => !a.success && decide (now - rateLimitWindowMs ≤ a.timestamp)) ∧
    ((calculateRateLimit l now).isRateLimited = true ↔
      10 ≤ (calculateRateLimit l now).recentFailedAttempts) ∧
    (calculateRateLimit l now).remainingAttempts =
      max 0 (10 - ((calculateRateLimit l now).recentFailedAttempts : Int)) := by
  refine ⟨?_, ?_, rfl⟩
  · simp [calculateRateLimit, List.countP_eq_length_filter]
  · simp [calculateRateLimit]

/-- Unfolding lemma: the `failed` branch of the clear step. -/
theorem clearAttempts_failed_eq (l : List ClaimAttempt) (now : Int) :
    clearAttempts "failed" l now = l.filter (fun attempt => attempt.success) := rfl

/-- Unfolding lemma: the `all` (else) branch of the clear step. -/
theorem clearAttempts_all_eq (l : List ClaimAttempt) (now : Int) :
    clearAttempts "all" l now = [] := rfl

/-- Unfolding lemma: the `rate-limit` branch of the clear step. -/
theorem clearAttempts_rateLimit_eq (l : List ClaimAttempt) (now : Int) :
    clearAttempts "rate-limit" l now =
      l.filter (fun attempt =>
        attempt.success || decide (attempt.timestamp < now - rateLimitWindowMs)) := rfl

/-- C2: the three recognized clear policies behave as specified: `failed`
keeps exactly the successful attempts, `all` empties the list, and
`rate-limit` keeps exactly the attempts that are successful or strictly
older than now - 15min; retained attempts keep their original relative
order (sublist of the input). -/
theorem clearAttempts_policy_semantics (l : List ClaimAttempt) (now : Int) :
    (clearAttempts "failed" l now = l.filter (fun a => a.success = true) ∧
      (clearAttempts "failed" l now).Sublist l) ∧
    clearAttempts "all" l now = [] ∧
    (clearAttempts "rate-limit" l now =
        l.filter (fun a => decide (a.success = true ∨ a.timestamp < now - rateLimitWindowMs)) ∧
      (clearAttempts "rate-limit" l now).Sublist l) := by
  refine ⟨⟨?_, ?_⟩, clearAttempts_all_eq l now, ?_, ?_⟩
  · rw [clearAttempts_failed_eq]
    apply List.filter_congr
    intro a _
    simp
  · rw [clearAttempts_failed_eq]
    exact List.filter_sublist l
  · rw [clearAttempts_rateLimit_eq]
    apply List.filter_congr
    intro a _
    cases h : a.success <;> simp [h]
  · rw [clearAttempts_rateLimit_eq]
    exact List.filter_sublist l

/-- C3: the `rate-limit` clear is idempotent at a fixed current time. -/
theorem clearAttempts_rateLimit_idempotent (l : List ClaimAttempt) (now : Int) :
    clearAttempts "rate-limit" (clearAttempts "rate-limit" l now) now =
      clearAttempts "rate-limit" l now := by
  rw [clearAttempts_rateLimit_eq, clearAttempts_rateLimit_eq, List.filter_filter]
  apply List.filter_congr
  intro a _
  simp [Bool.and_self]

/-- C4: appending a failed attempt whose timestamp lies in the window
[now - 15min, now] never decreases `recentFailedAttempts` and never
increases `remainingAttempts`. -/
theorem calculateRateLimit_monotone (l : List ClaimAttempt) (now : Int) (a : ClaimAttempt)
    (hfail : a.success = false)
    (hlo : now - rateLimitWindowMs ≤ a.timestamp)
    (hhi : a.timestamp ≤ now) :
    (calculateRateLimit l now).recentFailedAttempts ≤
      (calculateRateLimit (l ++ [a]) now).recentFailedAttempts ∧
    (calculateRateLimit (l ++ [a]) now).remainingAttempts ≤
      (calculateRateLimit l now).remainingAttempts := by
  have hlen : (calculateRateLimit l now).recentFailedAttempts ≤
      (calculateRateLimit (l ++ [a]) now).recentFailedAttempts := by
    simp [calculateRateLimit, List.filter_append]
  refine ⟨hlen, ?_⟩
  simp only [calculateRateLimit] at hlen ⊢
  have : (10 : Int) -
      ((l ++ [a]).filter (fun attempt =>
        !attempt.success && decide (now - rateLimitWindowMs ≤ attempt.timestamp))).length ≤
      10 - (l.filter (fun attempt =>
        !attempt.success && decide (now - rateLimitWindowMs ≤ attempt.timestamp))).length := by
    omega
  exact max_le_max le_rfl this

/-- C4 witness: concrete instance at the empty list, now = 0, appending a
failed attempt at timestamp 0. -/
theorem calculateRateLimit_monotone_witness :
    (calculateRateLimit [] 0).recentFailedAttempts ≤
      (calculateRateLimit ([] ++ [⟨"w", false, 0, none⟩]) 0).recentFailedAttempts ∧
    (calculateRateLimit ([] ++ [⟨"w", false, 0, none⟩]) 0).remainingAttempts ≤
      (calculateRateLimit [] 0).remainingAttempts :=
  calculateRateLimit_monotone [] 0 ⟨"w", false, 0, none⟩ rfl (by decide) (by decide)

/-- C10: running the rate-limit computation right after a `rate-limit`
clear (same current time) reports zero recent failures, not rate limited,
and 10 remaining attempts. -/
theorem rateLimit_clear_resets_rateLimit (l : List ClaimAttempt) (now : Int) :
    calculateRateLimit (clearAttempts "rate-limit" l now) now =
      ⟨0, false, 10⟩ := by
  rw [clearAttempts_rateLimit_eq]
  simp only [calculateRateLimit]
  rw [List.filter_filter]
  have hnil : l.filter (fun a =>
      (!a.success && decide (now - rateLimitWindowMs ≤ a.timestamp)) &&
        (a.success || decide (a.timestamp < now - rateLimitWindowMs))) = [] := by
    apply List.filter_eq_nil_iff.mpr
    intro a _
    cases h : a.success <;> simp [h] <;> omega
  rw [hnil]
  simp

-- Embedding of the POST /api/admin/claim-attempts route handler.

/-- Audit-snapshot counts passed to `sanitizeDataForLogging`: attempt
count and failed-attempt count. -/
structure CountsSnapshot where
  claimAttemptsCount : Nat
  failedAttemptsCount : Nat
deriving DecidableEq

/-- The audit record handed to `logAdminAction` by the POST handler. -/
structure AuditRecord where
  adminEmail : String
  action : String
  resourceType : String
  targetUserEmail : String
  clearType : String
  attemptsClearedCount : Nat
  previousData : CountsSnapshot
  newData : CountsSnapshot
deriving DecidableEq

/-- Observable outcome of one POST request: HTTP status, success flag,
optional message/error body fields, the user store after the request, and
the audit record written (if any). -/
structure PostResponse where
  status : Nat
  success : Bool
  message : Option String
  error : Option String
  db : List StoredUser
  audit : Option AuditRecord
deriving DecidableEq

/-- Lookup `User.findOne({email})`: first stored user with the given email. -/
def findOneUser (db : List StoredUser) (email : String) : Option StoredUser :=
  db.find? (fun u => u.email = email)

/-- Persist (`user.save()`) the modified document back into the store
(replaces the record(s) carrying the target email). -/
def saveUser (db : List StoredUser) (u : StoredUser) : List StoredUser :=
  db.map (fun v => if v.email = u.email then u else v)

/-- The `actionMap` of the POST handler. -/
def clearActionName (clearType : String) : String :=
  if clearType = "failed" then "CLEAR_CLAIM_ATTEMPTS_FAILED"
  else if clearType = "all" then "CLEAR_CLAIM_ATTEMPTS_ALL"
  else "RESET_RATE_LIMIT"

/-- The `messageMap` of the POST handler. -/
def clearMessageName (clearType : String) : String :=
  if clearType = "failed" then "failed"
  else if clearType = "all" then "all"
  else "rate limit (recent failed attempts)"

/-- POST /api/admin/claim-attempts: auth checks (401 without a session,
403 for non-admins), body validation (400 for a falsy email or an
unrecognized clear type), 404 when no user matches, then the clear,
save, conditional audit log (only when the admin session carries an
email), and the confirmation message. `session` is the auth0 session
user, `admin` the result of `isAdmin()`, `now` the server clock. -/
def postClaimAttempts (session : Option SessionUser) (admin : Bool)
    (userEmail : String) (clearType : String) (db : List StoredUser) (now : Int) :
    PostResponse :=
  match session with
  | none => ⟨401, false, none, some "Unauthorized", db, none⟩
  | some su =>
    if !admin then
      ⟨403, false, none, some "Forbidden: Admin access required", db, none⟩
    else if userEmail = "" then
      ⟨400, false, none, some "User email is required", db, none⟩
    else if !(validClearTypes.contains clearType) then
      ⟨400, false, none, some "Invalid clear type. Must be failed, all, or rate-limit", db, none⟩
    else
      match findOneUser db userEmail with
      | none => ⟨404, false, none, some "User not found", db, none⟩
      | some user =>
        let previousAttempts := user.claim_attempts
        let previousData : CountsSnapshot :=
          ⟨user.claim_attempts.length, failedCount user.claim_attempts⟩
        let newAttempts := clearAttempts clearType user.claim_attempts now
        let db2 := saveUser db { user with claim_attempts := newAttempts }
        let newData : CountsSnapshot := ⟨newAttempts.length, failedCount newAttempts⟩
        let audit : Option AuditRecord :=
          match su.email with
          | some adminEmail =>
            some ⟨adminEmail, clearActionName clearType, "claimAttempts", userEmail,
              clearType, previousAttempts.length - newAttempts.length, previousData, newData⟩
          | none => none
        ⟨200, true,
          some ("Cleared " ++ clearMessageName clearType ++ " claim attempts for " ++ userEmail),
          none, db2, audit⟩

/-- C5 counterexample: an admin request whose clear type is unrecognized
and whose email matches no user (empty store) is answered 400
(InvalidArgument), not 404 (NotFound): the claimed rule that NotFound applies when no user
matches does not hold unconditionally, because body validation runs
first. -/
theorem postClaimAttempts_invalid_type_beats_notFound :
    findOneUser [] "ghost@example.com" = none ∧
    (postClaimAttempts (some ⟨some "admin@example.com"⟩) true "ghost@example.com"
        "bogus" [] 0).status = 400 ∧
    (postClaimAttempts (some ⟨some "admin@example.com"⟩) true "ghost@example.com"
        "bogus" [] 0).status ≠ 404 := by
  refine ⟨rfl, rfl, ?_⟩
  decide

/-- C5 (amended): for admin-authenticated clear requests, validation runs
before the user lookup: an unrecognized clear policy is answered 400
(InvalidArgument) regardless of the email; NotFound (404) is returned when
the email is non-empty, the policy is recognized, and no user matches. In
both failure cases the store is unchanged and no audit record is written. -/
theorem postClaimAttempts_validation_amended (su : SessionUser) (userEmail clearType : String)
    (db : List StoredUser) (now : Int) :
    (validClearTypes.contains clearType = false →
      (postClaimAttempts (some su) true userEmail clearType db now).status = 400 ∧
      (postClaimAttempts (some su) true userEmail clearType db now).db = db ∧
      (postClaimAttempts (some su) true userEmail clearType db now).audit = none) ∧
    (userEmail ≠ "" → validClearTypes.contains clearType = true →
      findOneUser db userEmail = none →
      (postClaimAttempts (some su) true userEmail clearType db now).status = 404 ∧
      (postClaimAttempts (some su) true userEmail clearType db now).db = db ∧
      (postClaimAttempts (some su) true userEmail clearType db now).audit = none) := by
  constructor
  · intro hc
    have hc2 : clearType ∉ validClearTypes := by simpa using hc
    by_cases he : userEmail = "" <;> simp [postClaimAttempts, he, hc2]
  · intro hne hct hfind
    have hct2 : clearType ∈ validClearTypes := by simpa using hct
    simp [postClaimAttempts, hne, hct2, hfind]

/-- C5 witness: concrete instances of both amended failure modes on an
empty store. -/
theorem postClaimAttempts_validation_amended_witness :
    (postClaimAttempts (some ⟨some "a@x"⟩) true "ghost@x" "bogus" [] 0).status = 400 ∧
    (postClaimAttempts (some ⟨some "a@x"⟩) true "ghost@x" "all" [] 0).status = 404 :=
  ⟨((postClaimAttempts_validation_amended ⟨some "a@x"⟩ "ghost@x" "bogus" [] 0).1
      (by decide)).1,
   ((postClaimAttempts_validation_amended ⟨some "a@x"⟩ "ghost@x" "all" [] 0).2
      (by decide) (by decide) rfl).1⟩

/-- C7 counterexample: an admin whose session user carries no email clears
attempts successfully (status 200, confirmation message) yet no audit
record is written: `logAdminAction` is guarded by `if (adminEmail)`. -/
theorem postClaimAttempts_success_without_audit :
    (postClaimAttempts (some ⟨none⟩) true "u@x" "all"
        [⟨"u@x", none, [⟨"i", false, 0, none⟩]⟩] 0).success = true ∧
    (postClaimAttempts (some ⟨none⟩) true "u@x" "all"
        [⟨"u@x", none, [⟨"i", false, 0, none⟩]⟩] 0).status = 200 ∧
    (postClaimAttempts (some ⟨none⟩) true "u@x" "all"
        [⟨"u@x", none, [⟨"i", false, 0, none⟩]⟩] 0).audit = none := by
  refine ⟨rfl, rfl, ?_⟩
  decide

/-- C7 (amended): every successful clear — with or without an email on
the admin session — answers 200 with a confirmation message naming the
target email and the policy applied; whenever the session does carry an
email, the handler additionally writes an audit record with the pre- and
post-mutation attempt counts and failed-attempt counts. -/
theorem postClaimAttempts_audit_amended (sessionEmail : Option String)
    (userEmail clearType : String)
    (db : List StoredUser) (now : Int) (user : StoredUser)
    (hct : validClearTypes.contains clearType = true)
    (hne : userEmail ≠ "")
    (hfind : findOneUser db userEmail = some user) :
    (postClaimAttempts (some ⟨sessionEmail⟩) true userEmail clearType db now).status = 200 ∧
    (postClaimAttempts (some ⟨sessionEmail⟩) true userEmail clearType db now).success = true ∧
    (postClaimAttempts (some ⟨sessionEmail⟩) true userEmail clearType db now).message =
      some ("Cleared " ++ clearMessageName clearType ++ " claim attempts for " ++ userEmail) ∧
    (∀ adminEmail : String, sessionEmail = some adminEmail →
      (postClaimAttempts (some ⟨sessionEmail⟩) true userEmail clearType db now).audit =
        some ⟨adminEmail, clearActionName clearType, "claimAttempts", userEmail, clearType,
          user.claim_attempts.length - (clearAttempts clearType user.claim_attempts now).length,
          ⟨user.claim_attempts.length, failedCount user.claim_attempts⟩,
          ⟨(clearAttempts clearType user.claim_attempts now).length,
            failedCount (clearAttempts clearType user.claim_attempts now)⟩⟩) := by
  have hct2 : clearType ∈ validClearTypes := by simpa using hct
  refine ⟨?_, ?_, ?_, ?_⟩
  · simp [postClaimAttempts, hne, hct2, hfind]
  · simp [postClaimAttempts, hne, hct2, hfind]
  · simp [postClaimAttempts, hne, hct2, hfind]
  · intro adminEmail he
    subst he
    simp [postClaimAttempts, hne, hct2, hfind]

/-- C7 witness: two concrete successful `all` clears on a store with one
failed attempt — one without a session email (the confirmation message is
still returned), one with an email (the audit record is written). -/
theorem postClaimAttempts_audit_amended_witness :
    (postClaimAttempts (some ⟨none⟩) true "u@x" "all"
        [⟨"u@x", none, [⟨"i", false, 0, none⟩]⟩] 0).message =
      some ("Cleared " ++ clearMessageName "all" ++ " claim attempts for " ++ "u@x") ∧
    (postClaimAttempts (some ⟨some "a@x"⟩) true "u@x" "all"
        [⟨"u@x", none, [⟨"i", false, 0, none⟩]⟩] 0).audit =
      some ⟨"a@x", clearActionName "all", "claimAttempts", "u@x", "all",
        1 - (clearAttempts "all" [⟨"i", false, 0, none⟩] 0).length,
        ⟨1, failedCount [⟨"i", false, 0, none⟩]⟩,
        ⟨(clearAttempts "all" [⟨"i", false, 0, none⟩] 0).length,
          failedCount (clearAttempts "all" [⟨"i", false, 0, none⟩] 0)⟩⟩ := by
  have h1 := postClaimAttempts_audit_amended none "u@x" "all"
    [⟨"u@x", none, [⟨"i", false, 0, none⟩]⟩] 0 ⟨"u@x", none, [⟨"i", false, 0, none⟩]⟩
    (by decide) (by decide) rfl
  have h2 := postClaimAttempts_audit_amended (some "a@x") "u@x" "all"
    [⟨"u@x", none, [⟨"i", false, 0, none⟩]⟩] 0 ⟨"u@x", none, [⟨"i", false, 0, none⟩]⟩
    (by decide) (by decide) rfl
  exact ⟨h1.2.2.1, h2.2.2.2 "a@x" rfl⟩

-- Embedding of the GET /api/admin/claim-attempts route handler.

/-- A flattened, user-annotated claim attempt (the route type
`ClaimAttemptWithUser`). -/
structure ClaimAttemptWithUser where
  userEmail : String
  userName : Option String
  identifier : String
  success : Bool
  timestamp : Int
  item_id : Option String
deriving DecidableEq

/-- The `stats` object of a successful GET response. -/
structure QueryStats where
  totalAttempts : Nat
  failedAttempts : Nat
  successfulAttempts : Nat
  uniqueUsers : Nat
deriving DecidableEq

/-- Observable outcome of one GET request. -/
structure GetResponse where
  status : Nat
  success : Bool
  claimAttempts : List ClaimAttemptWithUser
  stats : Option QueryStats
  error : Option String
deriving DecidableEq

/-- Stable insertion into a descending-ordered list: the new element goes
after every element it is not strictly greater than (so later-processed
elements land after equal keys, matching a stable descending sort). -/
def insertDescBy {α : Type} (lt : α → α → Bool) (a : α) : List α → List α
  | [] => [a]
  | b :: l => if lt b a then a :: b :: l else b :: insertDescBy lt a l

/-- Stable descending sort by a strict comparison, processing the input
left to right. Models both `Array.prototype.sort` (stable since ES2019)
with comparator `(a, b) => b.key - a.key`, and the descending
sort of the store. -/
def sortDescBy {α : Type} (lt : α → α → Bool) (l : List α) : List α :=
  l.foldl (fun acc a => insertDescBy lt a acc) []

/-- Comparison on optional sort keys: an absent key sorts below every
present key (documents without attempts come last in a descending sort). -/
def optIntLt : Option Int → Option Int → Bool
  | none, none => false
  | none, some _ => true
  | some _, none => false
  | some a, some b => decide (a < b)

/-- Modelled from the data-store collaborator (MongoDB): a descending sort
on the array path `claim_attempts.timestamp` orders documents by the
maximum timestamp in the array; documents with no attempts sort last. -/
def userSortKey (u : StoredUser) : Option Int :=
  u.claim_attempts.foldl
    (fun m a =>
      match m with
      | none => some a.timestamp
      | some t => some (max t a.timestamp))
    none

/-- Strict "greater recent activity" comparison between stored users,
used for the descending sort of the store. -/
def userLt (u v : StoredUser) : Bool := optIntLt (userSortKey u) (userSortKey v)

/-- Strict timestamp comparison on annotated attempts, used for the
route call `sort((a, b) => b.timestamp - a.timestamp)`. -/
def attemptTsLt (a b : ClaimAttemptWithUser) : Bool := decide (a.timestamp < b.timestamp)

/-- Does a stored user match the `email` query parameter?  The source
builds `query = email ? { email } : {}`; an absent or empty (falsy)
parameter matches every user. -/
def matchesEmailQuery (email : Option String) (u : StoredUser) : Bool :=
  match email with
  | none => true
  | some e => if e = "" then true else u.email = e

/-- Annotate one attempt of a user, as pushed by the route loop. -/
def annotateAttempt (u : StoredUser) (a : ClaimAttempt) : ClaimAttemptWithUser :=
  ⟨u.email, u.name, a.identifier, a.success, a.timestamp, a.item_id⟩

/-- GET /api/admin/claim-attempts: auth checks, then
`User.find(query).sort(claim_attempts.timestamp desc).limit(limit)` —
the limit applies to the USER documents fetched — followed by the
flatten-with-filter loop, the timestamp-descending sort, `slice(0,
limit)` on the attempts, and the stats over the truncated list.
`failedParam`/`limitParam` model `searchParams.get`; an absent limit
defaults to 100. -/
def getClaimAttempts (session : Option SessionUser) (admin : Bool)
    (email : Option String) (failedParam : Option String) (limitParam : Option Nat)
    (db : List StoredUser) : GetResponse :=
  match session with
  | none => ⟨401, false, [], none, some "Unauthorized"⟩
  | some _ =>
    if !admin then
      ⟨403, false, [], none, some "Forbidden: Admin access required"⟩
    else
      let failedOnly := failedParam = some "true"
      let limit := limitParam.getD 100
      let users := (sortDescBy userLt (db.filter (matchesEmailQuery email))).take limit
      let flattened := users.foldl
        (fun acc u =>
          if u.claim_attempts.length > 0 then
            acc ++ (u.claim_attempts.filter
              (fun a => !failedOnly || !a.success)).map (annotateAttempt u)
          else
            acc)
        []
      let limited := (sortDescBy attemptTsLt flattened).take limit
      let stats : QueryStats :=
        ⟨limited.length,
         (limited.filter (fun a => !a.success)).length,
         (limited.filter (fun a => a.success)).length,
         (limited.map (fun a => a.userEmail)).dedup.length⟩
      ⟨200, true, limited, some stats, none⟩

/-- Stated from the words of the claim: the flattened, user-annotated attempts across
ALL matching users (failed-only keeping only failures), sorted by
timestamp descending, truncated to the limit. -/
def specQueryResult (db : List StoredUser) (email : Option String)
    (failedOnly : Bool) (limit : Nat) : List ClaimAttemptWithUser :=
  (sortDescBy attemptTsLt
    ((db.filter (matchesEmailQuery email)).foldr
      (fun u acc =>
        (u.claim_attempts.filter (fun a => !failedOnly || !a.success)).map
          (annotateAttempt u) ++ acc)
      [])).take limit

/-- C6 counterexample: with limit 1, failed-only, and two matching users —
the first (by the store descending activity sort) having only a
successful recent attempt, the second having a failed one — the route
returns no attempts, while the claimed contract over ALL matching users
returns the failed attempt of the second user. The `.limit(limit)` on the user
query cuts the second user off before flattening. -/
theorem getClaimAttempts_misses_matching_user :
    (getClaimAttempts (some ⟨some "adm@x"⟩) true none (some "true") (some 1)
        [⟨"a@x", some "A", [⟨"ia", true, 100, none⟩]⟩,
         ⟨"b@x", some "B", [⟨"ib", false, 50, none⟩]⟩]).claimAttempts = [] ∧
    specQueryResult
        [⟨"a@x", some "A", [⟨"ia", true, 100, none⟩]⟩,
         ⟨"b@x", some "B", [⟨"ib", false, 50, none⟩]⟩] none true 1 =
      [⟨"b@x", some "B", "ib", false, 50, none⟩] := by
  decide

/-- C6 amended contract: the returned attempts are drawn from at most
`limit` matching users — those the store descending
`claim_attempts.timestamp` sort ranks first — then failed-only filtered,
annotated, sorted by timestamp descending, and truncated to `limit`. -/
def amendedQueryResult (db : List StoredUser) (email : Option String)
    (failedOnly : Bool) (limit : Nat) : List ClaimAttemptWithUser :=
  (sortDescBy attemptTsLt
    (((sortDescBy userLt (db.filter (matchesEmailQuery email))).take limit).foldr
      (fun u acc =>
        (u.claim_attempts.filter (fun a => !failedOnly || !a.success)).map
          (annotateAttempt u) ++ acc)
      [])).take limit

/-- The guarded flatten loop of the route (`forEach` with a non-empty check and
pushes) equals a right fold of appends, given that the guarded function
yields nothing on users failing the guard. -/
theorem foldl_guarded_append {α β : Type} (p : α → Prop) [DecidablePred p]
    (f : α → List β) (hf : ∀ u, ¬ p u → f u = []) (us : List α) :
    ∀ init : List β,
      us.foldl (fun acc u => if p u then acc ++ f u else acc) init =
        init ++ us.foldr (fun u acc => f u ++ acc) [] := by
  induction us with
  | nil => intro init; simp
  | cons u us ih =>
    intro init
    by_cases hp : p u
    · simp only [List.foldl_cons, List.foldr_cons, if_pos hp]
      rw [ih]
      simp
    · simp only [List.foldl_cons, List.foldr_cons, if_neg hp]
      rw [ih, hf u hp]
      simp

/-- C6 (amended): for every admin-authenticated query, the route answers
200 with the amended result: the user-annotated attempts of the first
`limit` matching users (store order), failed-only filtered when the
`failed` parameter is "true", sorted by timestamp descending, truncated
to `limit` (default 100 when the parameter is absent). -/
theorem getClaimAttempts_contract_amended (su : SessionUser) (email : Option String)
    (failedParam : Option String) (limitParam : Option Nat) (db : List StoredUser) :
    (getClaimAttempts (some su) true email failedParam limitParam db).status = 200 ∧
    (getClaimAttempts (some su) true email failedParam limitParam db).success = true ∧
    (getClaimAttempts (some su) true email failedParam limitParam db).claimAttempts =
      amendedQueryResult db email (decide (failedParam = some "true"))
        (limitParam.getD 100) := by
  refine ⟨rfl, rfl, ?_⟩
  have key := foldl_guarded_append
    (fun u : StoredUser => u.claim_attempts.length > 0)
    (fun u => (u.claim_attempts.filter
      (fun a => !(decide (failedParam = some "true")) || !a.success)).map (annotateAttempt u))
    (by
      intro u hu
      have hnil : u.claim_attempts = [] := by
        cases h : u.claim_attempts with
        | nil => rfl
        | cons x xs => exact absurd (by simp [h]) hu
      simp [hnil])
    ((sortDescBy userLt (db.filter (matchesEmailQuery email))).take (limitParam.getD 100))
    []
  simp only [getClaimAttempts, amendedQueryResult]
  rw [key]
  simp

/-- C8: on both claim-attempt endpoints, a request without a session is
answered 401 Unauthorized with an error body, and an authenticated
non-admin request 403 Forbidden with an error body; in every such case no
data is returned (empty list, no stats, no message) and the store is
untouched with no audit record. -/
theorem adminEndpoints_auth_checks (admin : Bool) (email : Option String)
    (failedParam : Option String) (limitParam : Option Nat) (db : List StoredUser)
    (userEmail clearType : String) (now : Int) (su : SessionUser) :
    getClaimAttempts none admin email failedParam limitParam db =
      ⟨401, false, [], none, some "Unauthorized"⟩ ∧
    postClaimAttempts none admin userEmail clearType db now =
      ⟨401, false, none, some "Unauthorized", db, none⟩ ∧
    getClaimAttempts (some su) false email failedParam limitParam db =
      ⟨403, false, [], none, some "Forbidden: Admin access required"⟩ ∧
    postClaimAttempts (some su) false userEmail clearType db now =
      ⟨403, false, none, some "Forbidden: Admin access required", db, none⟩ :=
  ⟨rfl, rfl, rfl, rfl⟩

/-- Splitting a list by a Boolean predicate: the failing and passing
parts together account for every element. -/
theorem length_filter_not_add_length_filter {α : Type} (p : α → Bool) (l : List α) :
    (l.filter (fun a => !(p a))).length + (l.filter p).length = l.length := by
  induction l with
  | nil => rfl
  | cons a l ih =>
    cases h : p a <;> simp [List.filter_cons, h] <;> omega

/-- C9: whenever the query route returns stats, they describe exactly the
truncated returned page: `totalAttempts` is the length of the returned
list, and failed plus successful counts sum to it. -/
theorem queryStats_describe_returned_page (session : Option SessionUser) (admin : Bool)
    (email : Option String) (failedParam : Option String) (limitParam : Option Nat)
    (db : List StoredUser) (st : QueryStats)
    (h : (getClaimAttempts session admin email failedParam limitParam db).stats = some st) :
    st.totalAttempts =
      (getClaimAttempts session admin email failedParam limitParam db).claimAttempts.length ∧
    st.failedAttempts + st.successfulAttempts = st.totalAttempts := by
  cases session with
  | none => simp [getClaimAttempts] at h
  | some su =>
    cases admin with
    | false => simp [getClaimAttempts] at h
    | true =>
      simp only [getClaimAttempts] at h ⊢
      have hst := Option.some.inj h
      rw [← hst]
      exact ⟨rfl, length_filter_not_add_length_filter _ _⟩

/-- C9 witness: the empty store with an admin session yields stats
⟨0, 0, 0, 0⟩ over the empty returned page. -/
theorem queryStats_describe_returned_page_witness :
    (0 : Nat) =
      (getClaimAttempts (some ⟨some "adm@x"⟩) true none none none []).claimAttempts.length ∧
    (0 : Nat) + (0 : Nat) = (0 : Nat) := by
  have h := queryStats_describe_returned_page (some ⟨some "adm@x"⟩) true none none none []
    ⟨0, 0, 0, 0⟩ rfl
  exact h
